import Mathlib

/-!
# Verification of the tiktok-trimmer trim-orchestration core

Shallow embedding of `src/src/index.tsx` (the only source file of the
repository).  JavaScript numbers are modelled as exact rationals `ℚ`;
blob URLs (`URL.createObjectURL` handles) are modelled as natural-number
handles allocated from a counter threaded through the application state;
the asynchronous interactions with the browser and the ffmpeg.wasm engine
(metadata probe result, `exec` success, progress callbacks, `readFile`
success) are supplied up front as an `Env` record, and the run
(`handleFile`, which calls `trimVideo`) is a pure function from the
environment and the pre-run state to the post-run state together with the
trace of engine-workspace operations, the trace of progress updates, and
the list of revoked object-URL handles.
-/

namespace TiktokTrimmer

/-- An object-URL handle (`URL.createObjectURL` result), modelled as the
index at which it was allocated. -/
abbrev Handle := Nat

/-- `interface VideoFile` from the source: the selected file (kept here as
its name), its probed duration in seconds, and its preview object URL. -/
structure VideoFile where
  name : String
  duration : ℚ
  url : Handle
deriving Repr, DecidableEq

/-- `interface ProcessedVideo` from the source: the produced blob is kept
as its declared MIME type, plus the object URL and the originating file
name. -/
structure ProcessedVideo where
  mimeType : String
  url : Handle
  originalName : String
deriving Repr, DecidableEq

/-- `interface ProgressState` from the source. -/
structure ProgressState where
  visible : Bool
  percent : ℚ
  text : String
deriving Repr, DecidableEq

/-- The component state of `App` that the orchestration code reads or
writes, plus the allocation counter for object-URL handles. -/
structure AppState where
  currentVideo : Option VideoFile
  processedVideo : Option ProcessedVideo
  error : String
  info : String
  isProcessing : Bool
  ffmpegReady : Bool
  nextHandle : Handle
deriving Repr, DecidableEq

/-- One operation on the engine's private workspace (the ffmpeg.wasm
virtual filesystem): `writeFile`, `exec`, `readFile`, `deleteFile`. -/
inductive FsOp where
  | write (name : String)
  | exec (args : List String)
  | read (name : String)
  | remove (name : String)
deriving Repr, DecidableEq

/-- Terminal classification of one intake (`RunOutcome` of the spec). -/
inductive Outcome where
  | notReady
  | validationRejected
  | runFailure
  | success
deriving Repr, DecidableEq

/-- The external world's responses during one intake: the metadata probe
(`getVideoDuration`) either yields a duration or fails (`none`), the
engine invocation (`ffmpeg.exec`) reports a sequence of fractional
progress values and then either returns or throws, and the output read
(`ffmpeg.readFile`) either returns or throws. -/
structure Env where
  probe : Option ℚ
  execProgress : List ℚ
  execOk : Bool
  readOk : Bool
deriving Repr, DecidableEq

/-- Everything one call of `handleFile` produces: the post-run state, the
outcome classification, the trace of engine-workspace operations, the
trace of `setProgress` updates, and the handles passed to
`URL.revokeObjectURL`, each in program order. -/
structure RunResult where
  state : AppState
  outcome : Outcome
  fsTrace : List FsOp
  progressTrace : List ProgressState
  revoked : List Handle
deriving Repr, DecidableEq

/-- Models JavaScript `Math.round` (round half toward positive infinity):
`Math.round(x) = ⌊x + 1/2⌋`. -/
def jsRound (q : ℚ) : ℤ := ⌊q + 1 / 2⌋

/-- Models `String.prototype.toLowerCase` on the ASCII fragment. -/
def jsToLower (s : String) : String := s.map Char.toLower

/-- Models JavaScript `Number.prototype.toString` on the rational model of
JS numbers.  Integers print with no decimal point, exactly as in JS; any
other value of the model is printed as its exact decimal expansion with
the least number of fractional digits (every JS number is a binary
fraction, so its exact expansion is finite; the search bound 1200 exceeds
the 1074 fractional digits of the smallest denormal double).  The final
fallback arm is unreachable for values that can arise from JS numbers. -/
def jsNumToString (q : ℚ) : String :=
  if q.den = 1 then toString q.num
  else
    match (List.range 1200).find? (fun k => (q * (10 : ℚ) ^ k).den = 1) with
    | some k =>
      let scaled : ℤ := (q * (10 : ℚ) ^ k).num
      let sign := if scaled < 0 then "-" else ""
      let digits := toString scaled.natAbs
      let padded := String.mk (List.replicate (k + 1 - digits.length) '0') ++ digits
      let n := padded.length
      sign ++ padded.take (n - k) ++ "." ++ padded.drop (n - k)
    | none => toString q.num ++ "/" ++ toString q.den

/-- `getFileExtension` from the source:
`filename.split('.').pop()?.toLowerCase() || 'mp4'`.
`split('.')` on any string yields a nonempty array, so `pop()` is never
`undefined`; the `|| 'mp4'` fallback therefore fires exactly when the
lowercased last segment is the empty string. -/
def getFileExtension (filename : String) : String :=
  let ext := jsToLower ((filename.splitOn ".").getLastD "")
  if ext = "" then "mp4" else ext

/-- `getMimeType` from the source: a seven-entry lookup table on the
extension with default `"video/mp4"`. -/
def getMimeType (filename : String) : String :=
  let ext := getFileExtension filename
  if ext = "mp4" then "video/mp4"
  else if ext = "webm" then "video/webm"
  else if ext = "avi" then "video/x-msvideo"
  else if ext = "mov" then "video/quicktime"
  else if ext = "mkv" then "video/x-matroska"
  else if ext = "flv" then "video/x-flv"
  else if ext = "wmv" then "video/x-ms-wmv"
  else "video/mp4"

/-- The base-name computation of `downloadTrimmedVideo`:
`originalName.replace(/\.[^/.]+$/, '')`.  The regex removes a final dot
followed by one or more characters none of which is `.` or `/`; such a
match, when it exists, strips exactly the last dot-separated segment. -/
def stripExtension (filename : String) : String :=
  let parts := filename.splitOn "."
  let lastPart := parts.getLastD ""
  if parts.length ≥ 2 ∧ lastPart ≠ "" ∧ ¬ lastPart.contains '/' then
    String.intercalate "." parts.dropLast
  else filename

/-- The suggested download name built by `downloadTrimmedVideo`:
`` `${baseName}_trimmed.${originalExt}` `` where
`originalExt = getFileExtension(processedVideo.originalName)`. -/
def downloadName (originalName : String) : String :=
  stripExtension originalName ++ "_trimmed." ++ getFileExtension originalName

/-- The composite percent the `ffmpeg.on('progress')` handler stores for
one engine-reported fraction `f`:
`30 + Math.round(f * 100) * 0.6`. -/
def enginePercent (f : ℚ) : ℚ :=
  30 + (jsRound (f * 100) : ℚ) * (6 / 10)

/-- The full `ProgressState` the `ffmpeg.on('progress')` handler stores
for one engine-reported fraction (the `visible` field is spread from the
previous state, which is `true` throughout the invocation). -/
def engineProgressState (f : ℚ) : ProgressState :=
  { visible := true
    percent := enginePercent f
    text := "Processing video... " ++ toString (jsRound (f * 100)) ++ "%" }

/-- `trimVideo` from the source, as a function of the environment, the
state at entry (after `handleFile` has stored `currentVideo`), and the
`videoFile` argument.  Returns the state at exit together with the
outcome and the engine-workspace and progress traces.  Faithful to the
source:
* staged names are `input.<ext>` / `output.<ext>`;
* the `exec` argument list is
  `['-i', in, '-t', (duration-3).toString(), '-c', 'copy',
    '-avoid_negative_ts', 'make_zero', out]`;
* `deleteFile` for both staged names happens only after a successful
  `readFile`, inside the `try` block — the `catch` does not clean up;
* the `finally` block resets `isProcessing` on every path;
* on success two object URLs are created from the output blob (one stored
  in `processedVideo`, one only logged), so the counter advances by 2;
* the deferred `setTimeout` reset of the progress bar is outside the run
  and not part of the trace. -/
def trimVideo (env : Env) (st0 : AppState) (videoFile : VideoFile) :
    AppState × Outcome × List FsOp × List ProgressState :=
  let p1 : ProgressState := ⟨true, 10, "Loading video file..."⟩
  let p2 : ProgressState := ⟨true, 20, "Preparing FFmpeg..."⟩
  let inputFileName := "input." ++ getFileExtension videoFile.name
  let outputFileName := "output." ++ getFileExtension videoFile.name
  let p3 : ProgressState := ⟨true, 30, "Trimming video..."⟩
  let endTime := videoFile.duration - 3
  let args : List String :=
    ["-i", inputFileName, "-t", jsNumToString endTime, "-c", "copy",
     "-avoid_negative_ts", "make_zero", outputFileName]
  let engineEvents := env.execProgress.map engineProgressState
  let fsStaged : List FsOp := [FsOp.write inputFileName, FsOp.exec args]
  if env.execOk = false then
    ({ st0 with
        error := "Error processing video: ffmpeg.exec failed",
        isProcessing := false },
      Outcome.runFailure, fsStaged, [p1, p2, p3] ++ engineEvents)
  else
    let p4 : ProgressState := ⟨true, 90, "Finalizing..."⟩
    let fsRead := fsStaged ++ [FsOp.read outputFileName]
    if env.readOk = false then
      ({ st0 with
          error := "Error processing video: ffmpeg.readFile failed",
          isProcessing := false },
        Outcome.runFailure, fsRead, [p1, p2, p3] ++ engineEvents ++ [p4])
    else
      let mimeType := getMimeType videoFile.name
      let fsDone := fsRead ++ [FsOp.remove inputFileName, FsOp.remove outputFileName]
      let resultUrl := st0.nextHandle
      let st1 : AppState :=
        { st0 with
            processedVideo := some ⟨mimeType, resultUrl, videoFile.name⟩,
            nextHandle := st0.nextHandle + 2,
            isProcessing := false }
      let p5 : ProgressState := ⟨true, 100, "Complete!"⟩
      (st1, Outcome.success, fsDone, [p1, p2, p3] ++ engineEvents ++ [p4, p5])

/-- `handleFile` from the source, as a function of the environment, the
selected file's name, and the pre-run state.  Faithful to the source:
* if the engine is not ready, it sets the not-ready error and returns at
  once — no message clearing, no probe, no staging;
* otherwise it clears messages, discards the previous `processedVideo`,
  and sets `isProcessing`;
* `getVideoDuration` allocates a temporary object URL for the probe and
  revokes it only on the metadata-loaded path (the `onerror` path rejects
  without revoking);
* a probe failure or a duration `≤ 3` is thrown and caught locally
  (ValidationRejected), before any workspace operation;
* otherwise a preview object URL is allocated, `currentVideo` is stored,
  and `trimVideo` runs.  No other `URL.revokeObjectURL` call exists in
  the source. -/
def handleFile (env : Env) (fileName : String) (st0 : AppState) : RunResult :=
  if st0.ffmpegReady = false then
    { state :=
        { st0 with
            error := "FFmpeg is not loaded yet. Please wait for initialization to complete." }
      outcome := Outcome.notReady
      fsTrace := []
      progressTrace := []
      revoked := [] }
  else
    let st1 : AppState :=
      { st0 with error := "", info := "", processedVideo := none, isProcessing := true }
    let probeUrl := st1.nextHandle
    let st2 : AppState := { st1 with nextHandle := st1.nextHandle + 1 }
    match env.probe with
    | none =>
      { state :=
          { st2 with
              error := "Error processing video: metadata probe failed",
              isProcessing := false }
        outcome := Outcome.validationRejected
        fsTrace := []
        progressTrace := []
        revoked := [] }
    | some duration =>
      if duration ≤ 3 then
        { state :=
            { st2 with
                error :=
                  "Error processing video: Error: Video is too short (3 seconds or less). Cannot trim 3 seconds.",
                isProcessing := false }
          outcome := Outcome.validationRejected
          fsTrace := []
          progressTrace := []
          revoked := [probeUrl] }
      else
        let previewUrl := st2.nextHandle
        let videoFile : VideoFile := ⟨fileName, duration, previewUrl⟩
        let st3 : AppState :=
          { st2 with nextHandle := st2.nextHandle + 1, currentVideo := some videoFile }
        let r := trimVideo env st3 videoFile
        { state := r.1
          outcome := r.2.1
          fsTrace := r.2.2.1
          progressTrace := r.2.2.2
          revoked := [probeUrl] }

/-- The download-name derivation as the amended claim words it: when the
name has a strippable final extension the base is the name with that
extension stripped, otherwise the whole name; the appended extension is
the lowercased final dot-separated segment, defaulting to `mp4` when that
segment is empty or the name has no dot. -/
def specDownloadNameLower (name : String) : String :=
  let parts := name.splitOn "."
  let rawExt := parts.getLastD ""
  let base :=
    if parts.length ≥ 2 ∧ rawExt ≠ "" ∧ ¬ rawExt.contains '/' then
      String.intercalate "." parts.dropLast
    else name
  let e := jsToLower rawExt
  base ++ "_trimmed." ++ (if e = "" then "mp4" else e)

/-! ## Concrete fixtures used by witnesses and counterexamples -/

/-- A post-initialization state: engine loaded, nothing selected yet.
Handle 0 was consumed before this state, so the next allocation is 1. -/
def readyState : AppState :=
  { currentVideo := none, processedVideo := none, error := "", info := "",
    isProcessing := false, ffmpegReady := true, nextHandle := 1 }

/-- A state in which the engine never finished loading. -/
def loadingState : AppState :=
  { currentVideo := none, processedVideo := none, error := "", info := "",
    isProcessing := false, ffmpegReady := false, nextHandle := 0 }

/-- The intake video left over from a previous completed run. -/
def oldPreview : VideoFile := ⟨"old.mp4", 8, 1⟩

/-- The trim result left over from a previous completed run. -/
def priorResult : ProcessedVideo := ⟨"video/mp4", 2, "old.mp4"⟩

/-- A state after one completed run: a preview handle and a result handle
are live, and handles 0–2 have been consumed. -/
def statePrior : AppState :=
  { currentVideo := some oldPreview, processedVideo := some priorResult,
    error := "", info := "", isProcessing := false, ffmpegReady := true,
    nextHandle := 3 }

/-- An environment in which everything succeeds: the probe reports a
10-second video, the engine reports no progress events, and both the
invocation and the output read succeed. -/
def envSuccess : Env :=
  { probe := some 10, execProgress := [], execOk := true, readOk := true }

/-- An environment in which the engine invocation throws. -/
def envExecFail : Env :=
  { probe := some 10, execProgress := [], execOk := false, readOk := true }

/-- An environment in which the engine invocation succeeds but the
output read throws. -/
def envReadFail : Env :=
  { probe := some 10, execProgress := [], execOk := true, readOk := false }

/-- An environment in which the metadata probe fails. -/
def envProbeFail : Env :=
  { probe := none, execProgress := [], execOk := true, readOk := true }

/-- An environment in which the probed duration is only 2.5 seconds. -/
def envShort : Env :=
  { probe := some (5 / 2), execProgress := [], execOk := true, readOk := true }

/-- An environment whose engine-reported progress fractions are not
monotone: 0.9 and then 0.5. -/
def envBackwards : Env :=
  { probe := some 10, execProgress := [9 / 10, 1 / 2], execOk := true, readOk := true }

/-! ## Claim theorems -/

/-- C7: while the engine is not ready, `handleFile` only stores the
not-ready error and stops: the result is a fixed record that does not
depend on the environment (so the intake is never queued for later
processing, no probe/validation runs, no handle is allocated or revoked,
and no workspace operation happens). -/
theorem C7_not_ready_rejected (env : Env) (fileName : String) (st : AppState)
    (h : st.ffmpegReady = false) :
    handleFile env fileName st =
      { state := { st with
          error := "FFmpeg is not loaded yet. Please wait for initialization to complete." }
        outcome := Outcome.notReady
        fsTrace := []
        progressTrace := []
        revoked := [] } := by
  simp [handleFile, h]

/-- Witness for C7 at the loading-phase state and an otherwise successful
environment. -/
theorem C7_witness :
    loadingState.ffmpegReady = false ∧
    handleFile envSuccess "a.mp4" loadingState =
      { state := { loadingState with
          error := "FFmpeg is not loaded yet. Please wait for initialization to complete." }
        outcome := Outcome.notReady
        fsTrace := []
        progressTrace := []
        revoked := [] } :=
  ⟨rfl, C7_not_ready_rejected envSuccess "a.mp4" loadingState rfl⟩

/-- C2: if the probe fails or the probed duration is at most 3 seconds,
the run terminates as ValidationRejected and the engine-workspace trace
is empty — no write, invoke, read or remove is ever performed for that
intake. -/
theorem C2_short_or_probe_fail_rejected (env : Env) (fileName : String) (st : AppState)
    (hready : st.ffmpegReady = true)
    (hbad : env.probe = none ∨ ∃ d, env.probe = some d ∧ d ≤ 3) :
    (handleFile env fileName st).outcome = Outcome.validationRejected ∧
    (handleFile env fileName st).fsTrace = [] := by
  rcases hbad with hp | ⟨d, hp, hd⟩
  · simp [handleFile, hready, hp]
  · simp [handleFile, hready, hp, hd]

/-- Witness for C2 at the 2.5-second intake of Scenario B. -/
theorem C2_witness :
    readyState.ffmpegReady = true ∧
    (envShort.probe = none ∨ ∃ d, envShort.probe = some d ∧ d ≤ 3) ∧
    (handleFile envShort "a.mp4" readyState).outcome = Outcome.validationRejected ∧
    (handleFile envShort "a.mp4" readyState).fsTrace = [] :=
  ⟨rfl, Or.inr ⟨5 / 2, rfl, by norm_num⟩,
    C2_short_or_probe_fail_rejected envShort "a.mp4" readyState rfl
      (Or.inr ⟨5 / 2, rfl, by norm_num⟩)⟩

/-- C1: for a ready engine and a probed duration `d > 3`, the engine is
invoked with exactly the argument list input path, `-t` with
`(d - 3).toString()`, the stream-copy directive `-c copy`, the
timestamp-normalization directive `-avoid_negative_ts make_zero`, and the
output path, in that order; the limit is positive, and duration 10.0
yields the argument string `"7"`. -/
theorem C1_engine_invocation_args (env : Env) (fileName : String) (st : AppState) (d : ℚ)
    (hready : st.ffmpegReady = true) (hp : env.probe = some d) (hd : 3 < d) :
    FsOp.exec ["-i", "input." ++ getFileExtension fileName, "-t", jsNumToString (d - 3),
        "-c", "copy", "-avoid_negative_ts", "make_zero",
        "output." ++ getFileExtension fileName]
      ∈ (handleFile env fileName st).fsTrace ∧
    0 < d - 3 ∧ jsNumToString ((10 : ℚ) - 3) = "7" := by
  refine ⟨?_, by linarith, by with_unfolding_all rfl⟩
  have hd3 : ¬ d ≤ 3 := not_le.mpr hd
  cases he : env.execOk <;> cases ho : env.readOk <;>
    simp [handleFile, trimVideo, hready, hp, hd3, he, ho]

/-- Witness for C1: Scenario A, a 10-second `a.mp4` intake. -/
theorem C1_witness :
    readyState.ffmpegReady = true ∧ envSuccess.probe = some 10 ∧ (3 : ℚ) < 10 ∧
    (FsOp.exec ["-i", "input." ++ getFileExtension "a.mp4", "-t", jsNumToString ((10 : ℚ) - 3),
        "-c", "copy", "-avoid_negative_ts", "make_zero",
        "output." ++ getFileExtension "a.mp4"]
      ∈ (handleFile envSuccess "a.mp4" readyState).fsTrace ∧
    0 < (10 : ℚ) - 3 ∧ jsNumToString ((10 : ℚ) - 3) = "7") :=
  ⟨rfl, rfl, by norm_num,
    C1_engine_invocation_args envSuccess "a.mp4" readyState 10 rfl rfl (by norm_num)⟩

/-- C10: the media-type derivation is total with default `"video/mp4"`:
whenever the lowercased final dot-separated segment of the filename is
not one of the seven known video extensions (including a filename with no
dot), `getMimeType` returns `"video/mp4"`. -/
theorem C10_mime_type_total (fileName : String)
    (h : jsToLower ((fileName.splitOn ".").getLastD "") ∉
        (["mp4", "webm", "avi", "mov", "mkv", "flv", "wmv"] : List String)) :
    getMimeType fileName = "video/mp4" := by
  simp only [List.mem_cons, List.not_mem_nil, or_false, not_or] at h
  obtain ⟨h1, h2, h3, h4, h5, h6, h7⟩ := h
  unfold getMimeType getFileExtension
  dsimp only
  by_cases he : jsToLower ((fileName.splitOn ".").getLastD "") = ""
  · rw [if_pos he, if_pos rfl]
  · rw [if_neg he, if_neg h2, if_neg h3, if_neg h4, if_neg h5, if_neg h6, if_neg h7, if_neg h1]

/-- Witness for C10 at the non-video filename `archive.tar`. -/
theorem C10_witness :
    jsToLower (("archive.tar".splitOn ".").getLastD "") ∉
        (["mp4", "webm", "avi", "mov", "mkv", "flv", "wmv"] : List String) ∧
    getMimeType "archive.tar" = "video/mp4" :=
  ⟨of_decide_eq_true (by with_unfolding_all rfl),
    C10_mime_type_total "archive.tar" (of_decide_eq_true (by with_unfolding_all rfl))⟩

/-- C9 counterexample: the download name does not preserve the original
extension verbatim — for the intake name `a.MOV` the code produces
`a_trimmed.mov` (lowercased), not `a_trimmed.MOV`. -/
theorem C9_counterexample :
    downloadName "a.MOV" = "a_trimmed.mov" ∧ downloadName "a.MOV" ≠ "a_trimmed.MOV" :=
  ⟨by with_unfolding_all rfl, of_decide_eq_true (by with_unfolding_all rfl)⟩

/-- C9 (amended): the download name strips the final extension when one
exists and appends the fixed `_trimmed` suffix together with the
lowercased final extension (defaulting to `mp4` when the name has none),
and a `.mp4` name yields media type `video/mp4`. -/
theorem C9_download_name_amended (name : String) :
    downloadName name = specDownloadNameLower name ∧
    getMimeType "clip.mp4" = "video/mp4" ∧
    downloadName "clip.mp4" = "clip_trimmed.mp4" :=
  ⟨rfl, by with_unfolding_all rfl, by with_unfolding_all rfl⟩

/-- C3 (code bug, evaluated at the failing input): with the engine ready
and a valid 10-second intake whose engine invocation throws, the run is a
RunFailure, the staged input entry was written, and yet no remove
operation appears anywhere in the workspace trace — the `deleteFile`
calls sit inside the `try` block after the output read, so cleanup is
skipped on every failure path, contradicting the claimed unconditional
cleanup. -/
theorem C3_no_cleanup_after_exec_error :
    (handleFile envExecFail "a.mp4" readyState).outcome = Outcome.runFailure ∧
    FsOp.write "input.mp4" ∈ (handleFile envExecFail "a.mp4" readyState).fsTrace ∧
    FsOp.remove "input.mp4" ∉ (handleFile envExecFail "a.mp4" readyState).fsTrace ∧
    FsOp.remove "output.mp4" ∉ (handleFile envExecFail "a.mp4" readyState).fsTrace :=
  ⟨by with_unfolding_all rfl, of_decide_eq_true (by with_unfolding_all rfl),
    of_decide_eq_true (by with_unfolding_all rfl),
    of_decide_eq_true (by with_unfolding_all rfl)⟩

/-- C4 counterexample: a successful run that publishes a new TrimResult
while a previous one (handle 2) exists revokes the previous result's
handle zero times, not exactly once. -/
theorem C4_counterexample :
    (handleFile envSuccess "b.webm" statePrior).outcome = Outcome.success ∧
    (handleFile envSuccess "b.webm" statePrior).state.processedVideo.isSome = true ∧
    (handleFile envSuccess "b.webm" statePrior).revoked.count priorResult.url = 0 :=
  ⟨by with_unfolding_all rfl, by with_unfolding_all rfl, by with_unfolding_all rfl⟩

/-- C4 (amended): publishing a new TrimResult never revokes the previous
result's access handle — the old result is dropped at intake and its
handle leaks; the new result's handle is freshly allocated, so it always
differs from (is strictly above) the previous one. -/
theorem C4_no_revocation_fresh_handle (env : Env) (fileName : String) (st : AppState)
    (d : ℚ) (p : ProcessedVideo)
    (hready : st.ffmpegReady = true) (hp : env.probe = some d) (hd : 3 < d)
    (he : env.execOk = true) (ho : env.readOk = true)
    (hprev : st.processedVideo = some p) (hlt : p.url < st.nextHandle) :
    p.url ∉ (handleFile env fileName st).revoked ∧
    ∃ q, (handleFile env fileName st).state.processedVideo = some q ∧ p.url < q.url := by
  have hd3 : ¬ d ≤ 3 := not_le.mpr hd
  constructor
  · simp [handleFile, trimVideo, hready, hp, hd3, he, ho]
    exact Nat.ne_of_lt hlt
  · refine ⟨⟨getMimeType fileName, st.nextHandle + 1 + 1, fileName⟩, ?_,
      Nat.lt_succ_of_lt (Nat.lt_succ_of_lt hlt)⟩
    simp [handleFile, trimVideo, hready, hp, hd3, he, ho]

/-- Witness for the amended C4: the second of two sequential successful
runs, starting from the state a first run left behind. -/
theorem C4_witness :
    statePrior.processedVideo = some priorResult ∧
    priorResult.url < statePrior.nextHandle ∧
    (priorResult.url ∉ (handleFile envSuccess "b.webm" statePrior).revoked ∧
      ∃ q, (handleFile envSuccess "b.webm" statePrior).state.processedVideo = some q ∧
        priorResult.url < q.url) :=
  ⟨rfl, by decide,
    C4_no_revocation_fresh_handle envSuccess "b.webm" statePrior 10 priorResult rfl rfl
      (by norm_num) rfl rfl rfl (by decide)⟩

/-- C6 counterexample: after a run that fails at the engine invocation,
the prior TrimResult is gone — `processedVideo` was reset to `none` at
intake — contradicting the claim that it is left untouched and still
exists. -/
theorem C6_counterexample :
    (handleFile envExecFail "b.webm" statePrior).outcome = Outcome.runFailure ∧
    (handleFile envExecFail "b.webm" statePrior).state.processedVideo = none :=
  ⟨by with_unfolding_all rfl, by with_unfolding_all rfl⟩

/-- C6 (amended): on a RunFailure the prior TrimResult has already been
cleared from the state at intake (`setProcessedVideo(null)` runs before
validation), so no result exists after the failed run; the prior result's
access handle is never revoked during the run (it leaks rather than being
kept live by the state). -/
theorem C6_prior_result_cleared_on_failure (env : Env) (fileName : String) (st : AppState)
    (d : ℚ) (p : ProcessedVideo)
    (hready : st.ffmpegReady = true) (hp : env.probe = some d) (hd : 3 < d)
    (hfail : env.execOk = false ∨ env.readOk = false)
    (hprev : st.processedVideo = some p) (hlt : p.url < st.nextHandle) :
    (handleFile env fileName st).outcome = Outcome.runFailure ∧
    (handleFile env fileName st).state.processedVideo = none ∧
    p.url ∉ (handleFile env fileName st).revoked := by
  have hd3 : ¬ d ≤ 3 := not_le.mpr hd
  rcases hfail with hfe | hfr
  · refine ⟨?_, ?_, ?_⟩
    · simp [handleFile, trimVideo, hready, hp, hd3, hfe]
    · simp [handleFile, trimVideo, hready, hp, hd3, hfe]
    · simp [handleFile, trimVideo, hready, hp, hd3, hfe]
      exact Nat.ne_of_lt hlt
  · by_cases hfe : env.execOk = false
    · refine ⟨?_, ?_, ?_⟩
      · simp [handleFile, trimVideo, hready, hp, hd3, hfe]
      · simp [handleFile, trimVideo, hready, hp, hd3, hfe]
      · simp [handleFile, trimVideo, hready, hp, hd3, hfe]
        exact Nat.ne_of_lt hlt
    · have he : env.execOk = true := by
        cases hb : env.execOk
        · exact absurd hb hfe
        · rfl
      refine ⟨?_, ?_, ?_⟩
      · simp [handleFile, trimVideo, hready, hp, hd3, he, hfr]
      · simp [handleFile, trimVideo, hready, hp, hd3, he, hfr]
      · simp [handleFile, trimVideo, hready, hp, hd3, he, hfr]
        exact Nat.ne_of_lt hlt

/-- Witness for the amended C6: a run that fails at the output read,
starting from the state a successful run left behind. -/
theorem C6_witness :
    statePrior.processedVideo = some priorResult ∧
    (envReadFail.execOk = false ∨ envReadFail.readOk = false) ∧
    (handleFile envReadFail "b.webm" statePrior).outcome = Outcome.runFailure ∧
    (handleFile envReadFail "b.webm" statePrior).state.processedVideo = none ∧
    priorResult.url ∉ (handleFile envReadFail "b.webm" statePrior).revoked :=
  ⟨rfl, Or.inr rfl,
    C6_prior_result_cleared_on_failure envReadFail "b.webm" statePrior 10 priorResult rfl rfl
      (by norm_num) (Or.inr rfl) rfl (by decide)⟩

/-- C8 counterexample: a new selection replaces the previous IntakeVideo
(preview handle 1), but handle 1 is never revoked — only the temporary
probe URL is. -/
theorem C8_counterexample :
    (handleFile envSuccess "b.webm" statePrior).state.currentVideo =
      some ⟨"b.webm", 10, 4⟩ ∧
    oldPreview.url ∉ (handleFile envSuccess "b.webm" statePrior).revoked :=
  ⟨by with_unfolding_all rfl, of_decide_eq_true (by with_unfolding_all rfl)⟩

/-- C8 (amended): the previous IntakeVideo's preview handle is never
released when a new selection replaces it — on every path of
`handleFile` the only handle ever revoked is the temporary probe URL
allocated during the run, so any handle live before the run stays
unrevoked. -/
theorem C8_preview_handle_leaks (env : Env) (fileName : String) (st : AppState) (v : VideoFile)
    (hcur : st.currentVideo = some v) (hlt : v.url < st.nextHandle) :
    v.url ∉ (handleFile env fileName st).revoked := by
  by_cases h1 : st.ffmpegReady = false
  · simp [handleFile, h1]
  · rcases hp : env.probe with _ | d
    · simp [handleFile, h1, hp]
    · by_cases h2 : d ≤ 3
      · simp [handleFile, h1, hp, h2]
        exact Nat.ne_of_lt hlt
      · simp [handleFile, h1, hp, h2]
        exact Nat.ne_of_lt hlt

/-- Witness for the amended C8: a new selection over a live preview
handle. -/
theorem C8_witness :
    statePrior.currentVideo = some oldPreview ∧
    oldPreview.url < statePrior.nextHandle ∧
    oldPreview.url ∉ (handleFile envSuccess "b.webm" statePrior).revoked :=
  ⟨rfl, by decide,
    C8_preview_handle_leaks envSuccess "b.webm" statePrior oldPreview rfl (by decide)⟩

/-- The percent stored by one engine progress event. -/
theorem engineProgressState_percent (f : ℚ) :
    (engineProgressState f).percent = enginePercent f := rfl

/-- The composite percent is monotone in the engine-reported fraction. -/
theorem enginePercent_mono {a b : ℚ} (h : a ≤ b) : enginePercent a ≤ enginePercent b := by
  unfold enginePercent jsRound
  have hfl : ⌊a * 100 + 1 / 2⌋ ≤ ⌊b * 100 + 1 / 2⌋ := Int.floor_mono (by linarith)
  have hq : ((⌊a * 100 + 1 / 2⌋ : ℤ) : ℚ) ≤ ((⌊b * 100 + 1 / 2⌋ : ℤ) : ℚ) := by
    exact_mod_cast hfl
  have := mul_le_mul_of_nonneg_right hq (by norm_num : (0 : ℚ) ≤ 6 / 10)
  linarith

/-- A nonnegative reported fraction maps to a percent of at least 30. -/
theorem enginePercent_lb {f : ℚ} (h : 0 ≤ f) : 30 ≤ enginePercent f := by
  unfold enginePercent jsRound
  have h0 : (0 : ℤ) ≤ ⌊f * 100 + 1 / 2⌋ := Int.le_floor.mpr (by push_cast; linarith)
  have hq : (0 : ℚ) ≤ ((⌊f * 100 + 1 / 2⌋ : ℤ) : ℚ) := by exact_mod_cast h0
  have := mul_nonneg hq (by norm_num : (0 : ℚ) ≤ 6 / 10)
  linarith

/-- A reported fraction of at most 1 maps to a percent of at most 90. -/
theorem enginePercent_ub {f : ℚ} (h : f ≤ 1) : enginePercent f ≤ 90 := by
  unfold enginePercent jsRound
  have h100 : ⌊(100 : ℚ) + 1 / 2⌋ = (100 : ℤ) := Int.floor_eq_iff.mpr (by norm_num)
  have hle : ⌊f * 100 + 1 / 2⌋ ≤ (100 : ℤ) := by
    rw [← h100]; exact Int.floor_mono (by linarith)
  have hq : ((⌊f * 100 + 1 / 2⌋ : ℤ) : ℚ) ≤ (100 : ℚ) := by exact_mod_cast hle
  have := mul_le_mul_of_nonneg_right hq (by norm_num : (0 : ℚ) ≤ 6 / 10)
  linarith

/-- C5 (amended): within a successful run the composite percent sequence
10, 20, 30, engine events, 90, 100 is non-decreasing provided the
engine-reported fractions are themselves non-decreasing and lie in
[0, 1] — the handler applies no clamping and inherits any
non-monotonicity of the engine signal — and on Success the progress
percent terminates at exactly 100. -/
theorem C5_progress_monotone_amended (env : Env) (fileName : String) (st : AppState) (d : ℚ)
    (hready : st.ffmpegReady = true) (hp : env.probe = some d) (hd : 3 < d)
    (he : env.execOk = true) (ho : env.readOk = true)
    (hmono : env.execProgress.Chain' (fun a b => a ≤ b))
    (hbound : ∀ f ∈ env.execProgress, 0 ≤ f ∧ f ≤ 1) :
    ((handleFile env fileName st).progressTrace.map (fun p => p.percent)).Chain'
      (fun a b => a ≤ b) ∧
    ((handleFile env fileName st).progressTrace.map (fun p => p.percent)).getLast?
      = some 100 := by
  have hd3 : ¬ d ≤ 3 := not_le.mpr hd
  have htr : (handleFile env fileName st).progressTrace.map (fun p => p.percent)
      = [10, 20, 30] ++ (env.execProgress.map (fun f => enginePercent f) ++ [90, 100]) := by
    simp [handleFile, trimVideo, hready, hp, hd3, he, ho, List.map_map, Function.comp,
      engineProgressState_percent]
  rw [htr]
  constructor
  · apply List.Chain'.append
    · norm_num [List.chain'_cons, List.chain'_singleton]
    · apply List.Chain'.append
      · exact List.chain'_map_of_chain' _ (fun a b hab => enginePercent_mono hab) hmono
      · norm_num [List.chain'_cons, List.chain'_singleton]
      · intro x hx y hy
        simp only [List.head?_cons, Option.mem_def, Option.some.injEq] at hy
        subst hy
        rw [List.getLast?_map] at hx
        rcases Option.map_eq_some'.mp hx with ⟨f, hf, hfx⟩
        subst hfx
        exact enginePercent_ub (hbound f (List.mem_of_mem_getLast? hf)).2
    · intro x hx y hy
      simp only [List.getLast?_cons_cons, List.getLast?_singleton, Option.mem_def,
        Option.some.injEq] at hx
      subst hx
      cases hl : env.execProgress with
      | nil =>
        rw [hl] at hy
        simp only [List.map_nil, List.nil_append, List.head?_cons, Option.mem_def,
          Option.some.injEq] at hy
        subst hy
        norm_num
      | cons f t =>
        rw [hl] at hy
        simp only [List.map_cons, List.cons_append, List.head?_cons, Option.mem_def,
          Option.some.injEq] at hy
        subst hy
        exact enginePercent_lb ((hbound f (by rw [hl]; exact List.mem_cons_self f t)).1)
  · rw [List.getLast?_append_of_ne_nil _ (by simp),
      List.getLast?_append_of_ne_nil _ (by simp)]
    rfl

/-- C5 counterexample: the handler does not clamp and the composite
percent is not monotone under a non-monotone engine signal within
[0, 1] — fractions 0.9 then 0.5 produce the percent sequence
10, 20, 30, 84, 60, 90, 100, which decreases from 84 to 60. -/
theorem C5_counterexample :
    (handleFile envBackwards "a.mp4" readyState).progressTrace.map (fun p => p.percent)
      = [10, 20, 30, 84, 60, 90, 100] ∧
    (∀ f ∈ envBackwards.execProgress, 0 ≤ f ∧ f ≤ 1) ∧
    ¬ ((handleFile envBackwards "a.mp4" readyState).progressTrace.map
        (fun p => p.percent)).Chain' (fun a b => a ≤ b) := by
  have h : (handleFile envBackwards "a.mp4" readyState).progressTrace.map (fun p => p.percent)
      = [10, 20, 30, 84, 60, 90, 100] := by with_unfolding_all rfl
  refine ⟨h, ?_, ?_⟩
  · intro f hf
    have : f = 9 / 10 ∨ f = 1 / 2 := by
      simpa [envBackwards] using hf
    rcases this with rfl | rfl <;> norm_num
  · rw [h]
    intro hc
    simp only [List.chain'_cons, List.chain'_singleton, and_true] at hc
    norm_num at hc

/-- Witness for the amended C5: a successful 10-second run. -/
theorem C5_witness :
    envSuccess.execProgress.Chain' (fun a b => a ≤ b) ∧
    (∀ f ∈ envSuccess.execProgress, 0 ≤ f ∧ f ≤ 1) ∧
    (((handleFile envSuccess "a.mp4" readyState).progressTrace.map (fun p => p.percent)).Chain'
        (fun a b => a ≤ b) ∧
      ((handleFile envSuccess "a.mp4" readyState).progressTrace.map
          (fun p => p.percent)).getLast? = some 100) :=
  ⟨List.chain'_nil, by simp [envSuccess],
    C5_progress_monotone_amended envSuccess "a.mp4" readyState 10 rfl rfl (by norm_num) rfl rfl
      List.chain'_nil (by simp [envSuccess])⟩

end TiktokTrimmer
